import Mathlib

/-!
Verification of the diffusion_edf geometric backbone against its design
specification.  The Python sources (block.py, query_model.py,
equiformer/gaussian_rbf.py) are shallowly embedded below: tensors become
lists or functions over the reals, learned parameters become structure
fields, and module constructors that can raise become Except-valued
functions.
-/

set_option maxHeartbeats 1000000

noncomputable section

namespace DiffusionEdf

/-! ### equiformer/gaussian_rbf.py -/

/-- Real value of a boolean tensor comparison such as the factors
written as multiplications by comparisons in gaussian_rbf.py. -/
def bval (p : Prop) [Decidable p] : ℝ := if p then 1 else 0

/-- Literal constant written in the source of the gaussian function. -/
def gaussPi : ℝ := 3.14159

/-- Normalization constant a of the gaussian function: the square root
of two times the pi literal. -/
def gaussA : ℝ := Real.sqrt (2 * gaussPi)

/-- Embedding of gaussian from gaussian_rbf.py: the density of a normal
distribution with the given mean and standard deviation. -/
def gaussian (x mean std : ℝ) : ℝ :=
  Real.exp (-(0.5) * (((x - mean) / std) ^ 2)) / (gaussA * std)

/-- Embedding of soft_step from gaussian_rbf.py: a polynomial smoothstep
of degree n, written with boolean-comparison masks exactly as in the
source. -/
def soft_step (x : ℝ) (n : ℕ) : ℝ :=
  bval (x > 0) * (bval (x < 1) * (((n : ℝ) + 1) * x ^ n - (n : ℝ) * x ^ (n + 1))
    + bval (x ≥ 1))

/-- Embedding of soft_cutoff from gaussian_rbf.py: rescale the input past
the threshold, stretch by one plus the offset, and flip the smoothstep. -/
def soft_cutoff (x thr : ℝ) (n : ℕ) (offset : ℝ) : ℝ :=
  1 - soft_step ((x - thr) / (1 - thr) * (1 + offset)) n

/-- Embedding of soft_square_cutoff from gaussian_rbf.py: windows towards
one at the far boundary and towards zero at the near boundary, switching
at one half. -/
def soft_square_cutoff (x thr : ℝ) (n : ℕ) : ℝ :=
  soft_cutoff x thr n 0 * bval (x > 0.5) + soft_cutoff (1 - x) thr n 0 * bval (x ≤ 0.5)

/-- Softplus as used through F.softplus on the std logit. -/
def softplus (x : ℝ) : ℝ := Real.log (1 + Real.exp x)

/-- Parameters of GaussianRadialBasisLayer from gaussian_rbf.py: cutoff,
per-basis means and std logits, the affine weight and bias, and the
soft-cutoff flag. -/
structure GaussianRadialBasisLayer (numBasis : ℕ) where
  cutoff : ℝ
  mean : Fin numBasis → ℝ
  stdLogit : Fin numBasis → ℝ
  weight : ℝ
  bias : ℝ
  softCutoffFlag : Bool

/-- Embedding of GaussianRadialBasisLayer.forward, one output channel i:
normalize the distance by the cutoff, apply the affine map, evaluate the
gaussian with softplus-parameterized std, and multiply by the
soft square cutoff window of the normalized distance when the flag is
set (threshold 0.8 and degree 3 are the defaults used by the call in the
source). -/
def GaussianRadialBasisLayer.forward {nb : ℕ} (m : GaussianRadialBasisLayer nb)
    (dist : ℝ) (i : Fin nb) : ℝ :=
  let d := dist / m.cutoff
  let x := m.weight * d + m.bias
  let std := softplus (m.stdLogit i)
  let g := gaussian x (m.mean i) std
  if m.softCutoffFlag then g * soft_square_cutoff d 0.8 3 else g

/-! Helper lemmas on the smoothstep polynomial. -/

/-- On the unit interval the smoothstep core polynomial is at most one. -/
lemma soft_step_core_le_one (x : ℝ) (n : ℕ) (hx0 : 0 ≤ x) (hx1 : x ≤ 1) :
    ((n : ℝ) + 1) * x ^ n - (n : ℝ) * x ^ (n + 1) ≤ 1 := by
  have hsum : (n : ℝ) * x ^ n ≤ ∑ k in Finset.range n, x ^ k := by
    have h := Finset.card_nsmul_le_sum (Finset.range n) (fun k => x ^ k) (x ^ n)
      (fun i hi => pow_le_pow_of_le_one hx0 hx1 (le_of_lt (Finset.mem_range.mp hi)))
    simpa [nsmul_eq_mul] using h
  have hgeom : (∑ k in Finset.range n, x ^ k) * (x - 1) = x ^ n - 1 := geom_sum_mul x n
  have hkey : 0 ≤ (1 - x) * ((∑ k in Finset.range n, x ^ k) - (n : ℝ) * x ^ n) :=
    mul_nonneg (by linarith) (by linarith)
  have hexpand : (1 - x) * ((∑ k in Finset.range n, x ^ k) - (n : ℝ) * x ^ n)
      = 1 - x ^ n - (n : ℝ) * x ^ n + (n : ℝ) * x ^ (n + 1) := by
    linear_combination (-1 : ℝ) * hgeom
  linarith [hkey, hexpand.symm.trans_le (le_of_eq rfl)]

/-- On the unit interval the smoothstep core polynomial is nonnegative. -/
lemma soft_step_core_nonneg (x : ℝ) (n : ℕ) (hx0 : 0 ≤ x) (hx1 : x ≤ 1) :
    0 ≤ ((n : ℝ) + 1) * x ^ n - (n : ℝ) * x ^ (n + 1) := by
  have hxn : 0 ≤ x ^ n := pow_nonneg hx0 n
  have hfac : (0 : ℝ) ≤ (n : ℝ) + 1 - (n : ℝ) * x := by nlinarith [Nat.cast_nonneg (α := ℝ) n]
  have hmul : 0 ≤ x ^ n * ((n : ℝ) + 1 - (n : ℝ) * x) := mul_nonneg hxn hfac
  nlinarith [hmul, pow_succ x n]

/-- soft_step vanishes at nonpositive inputs. -/
lemma soft_step_of_nonpos {x : ℝ} (hx : x ≤ 0) (n : ℕ) : soft_step x n = 0 := by
  simp [soft_step, bval, not_lt.mpr hx]

/-- soft_step equals one at inputs at least one. -/
lemma soft_step_of_one_le {x : ℝ} (hx : 1 ≤ x) (n : ℕ) : soft_step x n = 1 := by
  have hx0 : (0 : ℝ) < x := lt_of_lt_of_le one_pos hx
  simp [soft_step, bval, hx0, not_lt.mpr hx, hx]

/-- soft_step is nonnegative everywhere. -/
lemma soft_step_nonneg (x : ℝ) (n : ℕ) : 0 ≤ soft_step x n := by
  rcases le_or_lt x 0 with hx | hx
  · rw [soft_step_of_nonpos hx]
  rcases le_or_lt 1 x with hx1 | hx1
  · rw [soft_step_of_one_le hx1]; norm_num
  · have hcore := soft_step_core_nonneg x n (le_of_lt hx) (le_of_lt hx1)
    simp only [soft_step, bval, if_pos hx, if_pos hx1, if_neg (not_le.mpr hx1)]
    nlinarith [hcore]

/-- soft_step is at most one everywhere. -/
lemma soft_step_le_one (x : ℝ) (n : ℕ) : soft_step x n ≤ 1 := by
  rcases le_or_lt x 0 with hx | hx
  · rw [soft_step_of_nonpos hx]; norm_num
  rcases le_or_lt 1 x with hx1 | hx1
  · rw [soft_step_of_one_le hx1]
  · have hcore := soft_step_core_le_one x n (le_of_lt hx) (le_of_lt hx1)
    simp only [soft_step, bval, if_pos hx, if_pos hx1, if_neg (not_le.mpr hx1)]
    nlinarith [hcore]

/-- soft_cutoff always lies in the unit interval. -/
lemma soft_cutoff_mem (x thr : ℝ) (n : ℕ) (offset : ℝ) :
    0 ≤ soft_cutoff x thr n offset ∧ soft_cutoff x thr n offset ≤ 1 := by
  unfold soft_cutoff
  constructor
  · linarith [soft_step_le_one ((x - thr) / (1 - thr) * (1 + offset)) n]
  · linarith [soft_step_nonneg ((x - thr) / (1 - thr) * (1 + offset)) n]

/-- soft_square_cutoff always lies in the unit interval. -/
lemma soft_square_cutoff_mem (x thr : ℝ) (n : ℕ) :
    0 ≤ soft_square_cutoff x thr n ∧ soft_square_cutoff x thr n ≤ 1 := by
  unfold soft_square_cutoff
  by_cases h : x > (0.5 : ℝ)
  · have h' : ¬ x ≤ (0.5 : ℝ) := not_le.mpr h
    simp only [bval, if_pos h, if_neg h', mul_one, mul_zero, add_zero]
    exact soft_cutoff_mem x thr n 0
  · have h' : x ≤ (0.5 : ℝ) := not_lt.mp h
    simp only [bval, if_neg h, if_pos h', mul_one, mul_zero, zero_add]
    exact soft_cutoff_mem (1 - x) thr n 0

/-- The gaussian function is nonnegative whenever the std is positive. -/
lemma gaussian_nonneg (x mean std : ℝ) (hstd : 0 < std) : 0 ≤ gaussian x mean std := by
  have hA : 0 < gaussA := Real.sqrt_pos.mpr (by norm_num [gaussPi])
  exact div_nonneg (Real.exp_nonneg _) (mul_pos hA hstd).le

/-- The gaussian function is bounded by the reciprocal of its
normalization whenever the std is positive. -/
lemma gaussian_le (x mean std : ℝ) (hstd : 0 < std) :
    gaussian x mean std ≤ 1 / (gaussA * std) := by
  have hA : 0 < gaussA := Real.sqrt_pos.mpr (by norm_num [gaussPi])
  have hden : 0 < gaussA * std := mul_pos hA hstd
  unfold gaussian
  have hexp : Real.exp (-(0.5) * (((x - mean) / std) ^ 2)) ≤ 1 := by
    have hz : -(0.5) * (((x - mean) / std) ^ 2) ≤ 0 := by
      nlinarith [sq_nonneg ((x - mean) / std)]
    calc Real.exp (-(0.5) * (((x - mean) / std) ^ 2)) ≤ Real.exp 0 := Real.exp_le_exp.mpr hz
      _ = 1 := Real.exp_zero
  exact (div_le_div_right hden).mpr hexp

/-- The softplus of any real is strictly positive. -/
lemma softplus_pos (x : ℝ) : 0 < softplus x := by
  have h := Real.exp_pos x
  exact Real.log_pos (by linarith)

/-- C10: for every real x and every n at least one, soft_step x n lies in
the closed unit interval, equals zero for every x at most zero and equals
one for every x at least one; consequently soft_cutoff and
soft_square_cutoff always return values in the unit interval for every
real input. -/
theorem soft_windows_unit_interval (x thr offset : ℝ) (n : ℕ) (hn : 1 ≤ n) :
    (0 ≤ soft_step x n ∧ soft_step x n ≤ 1) ∧
    (x ≤ 0 → soft_step x n = 0) ∧
    (1 ≤ x → soft_step x n = 1) ∧
    (0 ≤ soft_cutoff x thr n offset ∧ soft_cutoff x thr n offset ≤ 1) ∧
    (0 ≤ soft_square_cutoff x thr n ∧ soft_square_cutoff x thr n ≤ 1) :=
  ⟨⟨soft_step_nonneg x n, soft_step_le_one x n⟩,
   fun hx => soft_step_of_nonpos hx n,
   fun hx => soft_step_of_one_le hx n,
   soft_cutoff_mem x thr n offset,
   soft_square_cutoff_mem x thr n⟩

/-- Concrete instantiation of the soft-window bounds at one half with the
default threshold and degree. -/
theorem soft_windows_unit_interval_witness :
    1 ≤ 3 ∧
    ((0 ≤ soft_step (1/2) 3 ∧ soft_step (1/2) 3 ≤ 1) ∧
     ((1:ℝ)/2 ≤ 0 → soft_step (1/2) 3 = 0) ∧
     ((1:ℝ) ≤ 1/2 → soft_step (1/2) 3 = 1) ∧
     (0 ≤ soft_cutoff (1/2) 0.8 3 0 ∧ soft_cutoff (1/2) 0.8 3 0 ≤ 1) ∧
     (0 ≤ soft_square_cutoff (1/2) 0.8 3 ∧ soft_square_cutoff (1/2) 0.8 3 ≤ 1)) :=
  ⟨by decide, soft_windows_unit_interval (1/2) 0.8 0 3 (by decide)⟩

/-- C6: for every positive cutoff, a GaussianRadialBasisLayer with the
soft cutoff enabled (and the default threshold baked into forward)
returns a basis vector within epsilon of zero in every channel at
distance equal to the cutoff, and likewise at distance zero.  In fact
both values are exactly zero, so they are within any positive epsilon. -/
theorem gaussian_rbf_boundary_zero {nb : ℕ} (m : GaussianRadialBasisLayer nb)
    (hc : 0 < m.cutoff) (hs : m.softCutoffFlag = true) (ε : ℝ) (hε : 0 < ε) (i : Fin nb) :
    |m.forward m.cutoff i| < ε ∧ |m.forward 0 i| < ε := by
  have hwin1 : soft_square_cutoff 1 0.8 3 = 0 := by
    norm_num [soft_square_cutoff, soft_cutoff, soft_step, bval]
  have hwin0 : soft_square_cutoff 0 0.8 3 = 0 := by
    norm_num [soft_square_cutoff, soft_cutoff, soft_step, bval]
  have h1 : m.forward m.cutoff i = 0 := by
    simp [GaussianRadialBasisLayer.forward, hs, div_self (ne_of_gt hc), hwin1]
  have h0 : m.forward 0 i = 0 := by
    simp [GaussianRadialBasisLayer.forward, hs, hwin0]
  rw [h1, h0, abs_zero]
  exact ⟨hε, hε⟩

/-- Layer used to instantiate the boundary theorem: one basis channel,
cutoff one, zero mean and logit, unit weight, zero bias, soft cutoff on. -/
def rbfBoundaryLayer : GaussianRadialBasisLayer 1 :=
  ⟨1, fun _ => 0, fun _ => 0, 1, 0, true⟩

/-- Concrete instantiation of the radial-basis boundary theorem. -/
theorem gaussian_rbf_boundary_zero_witness :
    0 < rbfBoundaryLayer.cutoff ∧ rbfBoundaryLayer.softCutoffFlag = true ∧ (0:ℝ) < 1 ∧
    (|rbfBoundaryLayer.forward rbfBoundaryLayer.cutoff (0 : Fin 1)| < 1 ∧
     |rbfBoundaryLayer.forward 0 (0 : Fin 1)| < 1) :=
  ⟨one_pos, rfl, one_pos,
   gaussian_rbf_boundary_zero rbfBoundaryLayer one_pos rfl 1 one_pos (0 : Fin 1)⟩

/-- C9: GaussianRadialBasisLayer.forward is total: for every real
distance and all parameter values, the softplus-parameterized std is
strictly positive (so the gaussian divides by a nonzero quantity) and
every output channel is a finite real, bounded between zero and the
reciprocal of the gaussian normalization times the std. -/
theorem gaussian_rbf_total_bounded {nb : ℕ} (m : GaussianRadialBasisLayer nb)
    (dist : ℝ) (i : Fin nb) :
    0 < softplus (m.stdLogit i) ∧
    0 ≤ m.forward dist i ∧
    m.forward dist i ≤ 1 / (gaussA * softplus (m.stdLogit i)) := by
  have hstd : 0 < softplus (m.stdLogit i) := softplus_pos _
  refine ⟨hstd, ?_⟩
  have hg0 := gaussian_nonneg (m.weight * (dist / m.cutoff) + m.bias) (m.mean i)
    (softplus (m.stdLogit i)) hstd
  have hg1 := gaussian_le (m.weight * (dist / m.cutoff) + m.bias) (m.mean i)
    (softplus (m.stdLogit i)) hstd
  cases hflag : m.softCutoffFlag with
  | false =>
    simp only [GaussianRadialBasisLayer.forward, hflag, if_false, Bool.false_eq_true]
    exact ⟨hg0, hg1⟩
  | true =>
    simp only [GaussianRadialBasisLayer.forward, hflag, if_true]
    obtain ⟨hw0, hw1⟩ := soft_square_cutoff_mem (dist / m.cutoff) 0.8 3
    exact ⟨mul_nonneg hg0 hw0, le_trans (mul_le_of_le_one_right hg0 hw1) hg1⟩

/-! ### block.py: the DownBlock radius schedule -/

/-- Loop body of the radius schedule in DownBlock: each iteration first
divides the running radius by the square root of the pool ratio, then
appends the new value. -/
def radiusListAux (sq : ℝ) : ℝ → ℕ → List ℝ
  | _, 0 => []
  | radius, Nat.succ k => (radius / sq) :: radiusListAux sq (radius / sq) k

/-- Radius schedule built in DownBlock: the loop variable starts at
init_radius times the square root of the pool ratio. -/
def DownBlock.radius_list (init_radius pool_ratio : ℝ) (n_scales : ℕ) : List ℝ :=
  radiusListAux (Real.sqrt pool_ratio) (init_radius * Real.sqrt pool_ratio) n_scales

/-- Closed form of the radius loop: the j-th entry divides the starting
radius by the (j+1)-st power of the square-root factor. -/
lemma radiusListAux_get (sq : ℝ) : ∀ (k : ℕ) (r : ℝ) (j : ℕ), j < k →
    (radiusListAux sq r k).get? j = some (r / sq ^ (j + 1))
  | 0, _, j, hj => absurd hj (Nat.not_lt_zero j)
  | Nat.succ k, r, 0, _ => by simp [radiusListAux]
  | Nat.succ k, r, Nat.succ j, hj => by
    have ih := radiusListAux_get sq k (r / sq) j (Nat.lt_of_succ_lt_succ hj)
    simp only [radiusListAux, List.get?_cons_succ, ih]
    rw [div_div, ← pow_succ']

/-- C4: for every DownBlock configuration with positive init_radius,
pool ratio in the half-open unit interval and at least one scale, the
first entry of the radius schedule equals init_radius and every later
entry is the previous entry divided by the square root of the pool
ratio. -/
theorem downblock_radius_schedule (init_radius pool_ratio : ℝ) (n_scales : ℕ)
    (h0 : 0 < init_radius) (h1 : 0 < pool_ratio) (h2 : pool_ratio ≤ 1) (h3 : 1 ≤ n_scales) :
    (DownBlock.radius_list init_radius pool_ratio n_scales).get? 0 = some init_radius ∧
    ∀ s : ℕ, 1 ≤ s → s < n_scales →
      (DownBlock.radius_list init_radius pool_ratio n_scales).get? s =
        ((DownBlock.radius_list init_radius pool_ratio n_scales).get? (s - 1)).map
          (fun r => r / Real.sqrt pool_ratio) := by
  have hsq : (0 : ℝ) < Real.sqrt pool_ratio := Real.sqrt_pos.mpr h1
  constructor
  · rw [DownBlock.radius_list, radiusListAux_get _ _ _ 0 (lt_of_lt_of_le one_pos h3)]
    rw [pow_one, mul_div_cancel_right₀ _ (ne_of_gt hsq)]
  · intro s hs1 hs2
    obtain ⟨t, rfl⟩ : ∃ t, s = t + 1 := ⟨s - 1, (Nat.succ_pred_eq_of_pos hs1).symm⟩
    rw [DownBlock.radius_list, radiusListAux_get _ _ _ (t + 1) hs2]
    have ht := radiusListAux_get (Real.sqrt pool_ratio) n_scales
      (init_radius * Real.sqrt pool_ratio) t (by omega)
    simp only [Nat.add_sub_cancel, ht, Option.map_some']
    rw [div_div, ← pow_succ]

/-- Concrete instantiation of the radius schedule theorem with unit
radius, unit pool ratio and one scale. -/
theorem downblock_radius_schedule_witness :
    (0 : ℝ) < 1 ∧ (0 : ℝ) < 1 ∧ (1 : ℝ) ≤ 1 ∧ 1 ≤ 1 ∧
    ((DownBlock.radius_list 1 1 1).get? 0 = some 1 ∧
     ∀ s : ℕ, 1 ≤ s → s < 1 →
       (DownBlock.radius_list 1 1 1).get? s =
         ((DownBlock.radius_list 1 1 1).get? (s - 1)).map (fun r => r / Real.sqrt 1)) :=
  ⟨one_pos, one_pos, le_refl 1, le_refl 1,
   downblock_radius_schedule 1 1 1 one_pos one_pos (le_refl 1) (le_refl 1)⟩

/-! ### query_model.py: the batch-and-scale index encoding -/

/-- Encoding computed in QueryModel.forward: the combined index of a
query with batch index b at scale s is the batch index times the scale
index plus the scale index (query_batch times query_scale plus
query_scale, entrywise after broadcasting). -/
def QueryModel.encode_batch_scale (b s : ℕ) : ℕ := b * s + s

/-- Batch decoding used in QueryModel._get_init_query_pos: floor
division of the combined index by the number of scales. -/
def QueryModel.decode_batch (c n_scales : ℕ) : ℕ := c / n_scales

/-- Scale decoding used in QueryModel._get_init_query_pos: remainder of
the combined index modulo the number of scales. -/
def QueryModel.decode_scale (c n_scales : ℕ) : ℕ := c % n_scales

/-- C3 fails on the code: with two scales, a query in batch 1 at scale 1
receives combined index 1 * 1 + 1 = 2, and 2 mod 2 = 0, not the scale 1
required by the decoder of _get_init_query_pos (the encoder multiplies
the batch index by the scale index instead of by the number of
scales). -/
theorem querymodel_batch_scale_roundtrip_fails :
    QueryModel.encode_batch_scale 1 1 = 2 ∧ (1 : ℕ) < 2 ∧
    QueryModel.decode_batch (QueryModel.encode_batch_scale 1 1) 2 = 1 ∧
    QueryModel.decode_scale (QueryModel.encode_batch_scale 1 1) 2 = 0 ∧
    ¬ QueryModel.decode_scale (QueryModel.encode_batch_scale 1 1) 2 = 1 := by
  decide

/-! ### block.py: module constructors and their configuration checks -/

/-- An irrep signature: an ordered list of (multiplicity, degree,
odd-parity) entries. -/
abbrev Irreps : Type := List (ℕ × ℕ × Bool)

/-- Dimension of an irrep signature: each (mult, degree, parity) entry
contributes mult times (two times degree plus one) components. -/
def Irreps.dim (ir : Irreps) : ℕ := (ir.map (fun e => e.1 * (2 * e.2.1 + 1))).sum

/-- The construction-time failures raised by the module constructors in
block.py: failed asserts, unknown variant strings and the
NotImplementedError paths. -/
inductive InitError where
  | headDimAssert
  | unknownAttnType
  | notImplementedAttn
  | irrepsMismatch
  | unknownPoolMethod
  | fcNeuronsAssert
  | nLayersAssert
  | poolMethodAssert
  | layersPerScaleAssert
  | lengthAssert
  deriving DecidableEq

/-- Configuration retained by a successfully constructed
EquiformerBlock. -/
structure EquiformerBlockDesc where
  irreps_src : Irreps
  irreps_dst : Irreps
  irreps_head : Irreps
  num_heads : ℕ
  attn_type : String
  deriving DecidableEq

/-- Embedding of EquiformerBlock.__init__: asserts that num_heads times
the head irrep dimension equals the embedding (destination) irrep
dimension, then dispatches on the attention-type string, raising on
unknown strings and on the unimplemented linear and dp variants. -/
def equiformerBlockInit (irreps_src irreps_dst irreps_edge_attr irreps_head : Irreps)
    (num_heads : ℕ) (fc_neurons : List ℕ) (attn_type : String) :
    Except InitError EquiformerBlockDesc :=
  if num_heads * irreps_head.dim ≠ irreps_dst.dim then .error .headDimAssert
  else if ¬ (attn_type = "mlp" ∨ attn_type = "linear" ∨ attn_type = "dp") then
    .error .unknownAttnType
  else if attn_type = "mlp" then
    .ok ⟨irreps_src, irreps_dst, irreps_head, num_heads, attn_type⟩
  else .error .notImplementedAttn

/-- Configuration retained by a successfully constructed PoolingBlock. -/
structure PoolingBlockDesc where
  block : EquiformerBlockDesc
  pool_radius : ℝ
  pool_ratio : ℝ

/-- Embedding of PoolingBlock.__init__: raises NotImplementedError when
the source and destination irrep signatures differ, then constructs the
inner EquiformerBlock, checks the pooling-method string and the
radial-basis channel count. -/
def poolingBlockInit (irreps_src irreps_dst irreps_edge_attr irreps_head : Irreps)
    (num_heads : ℕ) (fc_neurons : List ℕ) (pool_radius pool_ratio : ℝ)
    (pool_method attn_type : String) : Except InitError PoolingBlockDesc :=
  if irreps_src ≠ irreps_dst then .error .irrepsMismatch
  else
    match equiformerBlockInit irreps_src irreps_dst irreps_edge_attr irreps_head
        num_heads fc_neurons attn_type with
    | .error e => .error e
    | .ok block =>
      if pool_method = "fps" then
        if fc_neurons.length < 1 then .error .fcNeuronsAssert
        else .ok ⟨block, pool_radius, pool_ratio⟩
      else .error .unknownPoolMethod

/-- Configuration retained by a successfully constructed
RadiusGraphBlock. -/
structure RadiusGraphBlockDesc where
  blocks : List EquiformerBlockDesc
  radius : ℝ
  n_layers : ℕ

/-- Build the given number of identically configured blocks from a
constructor result, mirroring the list comprehension of module
constructions in RadiusGraphBlock.__init__. -/
def initBlocksList (mk : Except InitError EquiformerBlockDesc) :
    ℕ → Except InitError (List EquiformerBlockDesc)
  | 0 => .ok []
  | Nat.succ k =>
    match mk with
    | .error e => .error e
    | .ok b =>
      match initBlocksList mk k with
      | .error e => .error e
      | .ok bs => .ok (b :: bs)

/-- Embedding of RadiusGraphBlock.__init__: asserts at least one
radial-basis channel and at least one layer, then constructs the stack
of EquiformerBlocks. -/
def radiusGraphBlockInit (irreps irreps_edge_attr irreps_head : Irreps)
    (num_heads : ℕ) (fc_neurons : List ℕ) (radius : ℝ) (n_layers : ℕ)
    (attn_type : String) : Except InitError RadiusGraphBlockDesc :=
  if fc_neurons.length < 1 then .error .fcNeuronsAssert
  else if n_layers < 1 then .error .nLayersAssert
  else
    match initBlocksList (equiformerBlockInit irreps irreps irreps_edge_attr irreps_head
        num_heads fc_neurons attn_type) n_layers with
    | .error e => .error e
    | .ok blocks => .ok ⟨blocks, radius, n_layers⟩

/-- A layer appended to the DownBlock module list: either a pooling
block or a radius-graph (self-connection) block. -/
inductive LayerDesc where
  | pooling (d : PoolingBlockDesc)
  | radiusGraph (d : RadiusGraphBlockDesc)

/-- Whether a DownBlock layer is a pooling block. -/
def LayerDesc.isPooling : LayerDesc → Bool
  | .pooling _ => true
  | .radiusGraph _ => false

/-- Embedding of the per-scale loop of DownBlock.__init__: each scale
divides the running radius by the square root of the pool ratio, appends
a PoolingBlock when a pooling method is configured, and appends a
RadiusGraphBlock when the remaining layer count is at least one. -/
def downBlockScales (irreps irreps_edge_attr irreps_head : Irreps) (num_heads : ℕ)
    (fc_neurons : List ℕ) (pool_ratio : ℝ) (n_layers_per_scale : ℕ)
    (pool_method : Option String) (attn_type : String) :
    ℝ → ℕ → Except InitError (List LayerDesc × List ℝ)
  | _, 0 => .ok ([], [])
  | radius, Nat.succ k =>
    let radius' := radius / Real.sqrt pool_ratio
    let poolRes : Except InitError (List LayerDesc) :=
      match pool_method with
      | some pm =>
        match poolingBlockInit irreps irreps irreps_edge_attr irreps_head num_heads
            fc_neurons radius' pool_ratio pm attn_type with
        | .error e => .error e
        | .ok pb => .ok [LayerDesc.pooling pb]
      | none => .ok []
    match poolRes with
    | .error e => .error e
    | .ok poolLayers =>
      let nSelf := n_layers_per_scale - (if pool_method.isSome then 1 else 0)
      let rgRes : Except InitError (List LayerDesc) :=
        if 1 ≤ nSelf then
          match radiusGraphBlockInit irreps irreps_edge_attr irreps_head num_heads
              fc_neurons radius' nSelf attn_type with
          | .error e => .error e
          | .ok rb => .ok [LayerDesc.radiusGraph rb]
        else .ok []
      match rgRes with
      | .error e => .error e
      | .ok rgLayers =>
        match downBlockScales irreps irreps_edge_attr irreps_head num_heads fc_neurons
            pool_ratio n_layers_per_scale pool_method attn_type radius' k with
        | .error e => .error e
        | .ok (rest, radii) => .ok (poolLayers ++ rgLayers ++ rest, radius' :: radii)

/-- Embedding of DownBlock.__init__: the construction-time asserts that
a unit pool ratio excludes a pooling method (and a non-unit ratio
requires one) and that there is at least one layer per scale, followed
by the per-scale construction loop starting from init_radius times the
square root of the pool ratio. -/
def downBlockInit (irreps irreps_edge_attr irreps_head : Irreps) (num_heads : ℕ)
    (fc_neurons : List ℕ) (init_radius pool_ratio : ℝ) (n_scales n_layers_per_scale : ℕ)
    (pool_method : Option String) (attn_type : String) :
    Except InitError (List LayerDesc × List ℝ) :=
  let rest : Except InitError (List LayerDesc × List ℝ) :=
    if n_layers_per_scale < 1 then .error .layersPerScaleAssert
    else downBlockScales irreps irreps_edge_attr irreps_head num_heads fc_neurons
      pool_ratio n_layers_per_scale pool_method attn_type
      (init_radius * Real.sqrt pool_ratio) n_scales
  if pool_ratio = 1 then
    if pool_method ≠ none then .error .poolMethodAssert else rest
  else
    if pool_method = none then .error .poolMethodAssert else rest

/-- With the mlp attention type and a matching head dimension,
EquiformerBlock construction succeeds. -/
lemma equiformerBlockInit_mlp_ok (irreps_src irreps_dst irreps_edge_attr irreps_head : Irreps)
    (num_heads : ℕ) (fc_neurons : List ℕ)
    (hdim : num_heads * irreps_head.dim = irreps_dst.dim) :
    equiformerBlockInit irreps_src irreps_dst irreps_edge_attr irreps_head num_heads
      fc_neurons "mlp" = .ok ⟨irreps_src, irreps_dst, irreps_head, num_heads, "mlp"⟩ := by
  simp [equiformerBlockInit, hdim]

/-- EquiformerBlock construction never raises the irrep-signature
mismatch error (that error belongs to PoolingBlock alone). -/
lemma equiformerBlockInit_ne_mismatch (irreps_src irreps_dst irreps_edge_attr irreps_head : Irreps)
    (num_heads : ℕ) (fc_neurons : List ℕ) (attn_type : String) :
    equiformerBlockInit irreps_src irreps_dst irreps_edge_attr irreps_head num_heads
      fc_neurons attn_type ≠ .error .irrepsMismatch := by
  unfold equiformerBlockInit
  split_ifs <;> simp

/-- Building a list of identical successfully constructed blocks
succeeds with the evident list. -/
lemma initBlocksList_ok (b : EquiformerBlockDesc) :
    ∀ n : ℕ, initBlocksList (.ok b) n = .ok (List.replicate n b)
  | 0 => rfl
  | Nat.succ k => by simp [initBlocksList, initBlocksList_ok b k, List.replicate]

/-- With the mlp attention type, a matching head dimension, at least one
radial-basis channel and at least one layer, RadiusGraphBlock
construction succeeds. -/
lemma radiusGraphBlockInit_mlp_ok (irreps irreps_edge_attr irreps_head : Irreps)
    (num_heads : ℕ) (fc_neurons : List ℕ) (radius : ℝ) (n_layers : ℕ)
    (hdim : num_heads * irreps_head.dim = irreps.dim) (hfc : 1 ≤ fc_neurons.length)
    (hnl : 1 ≤ n_layers) :
    radiusGraphBlockInit irreps irreps_edge_attr irreps_head num_heads fc_neurons radius
      n_layers "mlp"
      = .ok ⟨List.replicate n_layers ⟨irreps, irreps, irreps_head, num_heads, "mlp"⟩,
          radius, n_layers⟩ := by
  rw [radiusGraphBlockInit,
    equiformerBlockInit_mlp_ok irreps irreps irreps_edge_attr irreps_head num_heads
      fc_neurons hdim, initBlocksList_ok]
  simp [Nat.not_lt.mpr hfc, Nat.not_lt.mpr hnl]

/-- With no pooling method configured, every iteration of the DownBlock
per-scale loop succeeds and appends only radius-graph layers, provided
the shared block configuration is valid. -/
lemma downBlockScales_none_ok (irreps irreps_edge_attr irreps_head : Irreps)
    (num_heads : ℕ) (fc_neurons : List ℕ) (pool_ratio : ℝ) (n_layers_per_scale : ℕ)
    (hdim : num_heads * irreps_head.dim = irreps.dim) (hfc : 1 ≤ fc_neurons.length)
    (hl : 1 ≤ n_layers_per_scale) :
    ∀ (k : ℕ) (r : ℝ), ∃ layers radii,
      downBlockScales irreps irreps_edge_attr irreps_head num_heads fc_neurons pool_ratio
        n_layers_per_scale none "mlp" r k = .ok (layers, radii) ∧
      ∀ l ∈ layers, l.isPooling = false
  | 0, _ => ⟨[], [], rfl, by simp⟩
  | Nat.succ k, r => by
    obtain ⟨layers, radii, heq, hnp⟩ := downBlockScales_none_ok irreps irreps_edge_attr
      irreps_head num_heads fc_neurons pool_ratio n_layers_per_scale hdim hfc hl k
      (r / Real.sqrt pool_ratio)
    refine ⟨[LayerDesc.radiusGraph ⟨List.replicate (n_layers_per_scale - 0)
        ⟨irreps, irreps, irreps_head, num_heads, "mlp"⟩,
        r / Real.sqrt pool_ratio, n_layers_per_scale - 0⟩] ++ layers,
      (r / Real.sqrt pool_ratio) :: radii, ?_, ?_⟩
    · rw [downBlockScales]
      simp only [Option.isSome_none, Bool.false_eq_true, if_false]
      rw [radiusGraphBlockInit_mlp_ok irreps irreps_edge_attr irreps_head num_heads
        fc_neurons (r / Real.sqrt pool_ratio) (n_layers_per_scale - 0)
        hdim hfc (by omega), if_pos (by omega : 1 ≤ n_layers_per_scale - 0), heq]
      simp
    · intro l hl'
      rcases List.mem_append.mp hl' with h | h
      · rcases List.mem_singleton.mp h with rfl
        rfl
      · exact hnp l h

/-- C7: constructing a DownBlock with unit pool ratio and a configured
pooling method fails immediately at construction time; with unit pool
ratio and no pooling method the check passes, construction succeeds and
no pooling block is appended to the layer list. -/
theorem downblock_pool_ratio_one_check (irreps irreps_edge_attr irreps_head : Irreps)
    (num_heads : ℕ) (fc_neurons : List ℕ) (init_radius : ℝ)
    (n_scales n_layers_per_scale : ℕ)
    (hdim : num_heads * irreps_head.dim = irreps.dim)
    (hfc : 1 ≤ fc_neurons.length) (hl : 1 ≤ n_layers_per_scale) :
    (∀ pm : String,
      downBlockInit irreps irreps_edge_attr irreps_head num_heads fc_neurons init_radius 1
        n_scales n_layers_per_scale (some pm) "mlp" = .error .poolMethodAssert) ∧
    (∃ layers radii,
      downBlockInit irreps irreps_edge_attr irreps_head num_heads fc_neurons init_radius 1
        n_scales n_layers_per_scale none "mlp" = .ok (layers, radii) ∧
      ∀ l ∈ layers, l.isPooling = false) := by
  constructor
  · intro pm
    simp [downBlockInit]
  · obtain ⟨layers, radii, heq, hnp⟩ := downBlockScales_none_ok irreps irreps_edge_attr
      irreps_head num_heads fc_neurons 1 n_layers_per_scale hdim hfc hl n_scales
      (init_radius * Real.sqrt 1)
    rw [Real.sqrt_one, mul_one] at heq
    exact ⟨layers, radii, by simp [downBlockInit, Nat.not_lt.mpr hl, heq], hnp⟩

/-- Concrete instantiation of the DownBlock unit-pool-ratio check: a
one-channel scalar signature, one head, one radial channel, one scale
and one layer per scale. -/
theorem downblock_pool_ratio_one_check_witness :
    1 * Irreps.dim [(1, 0, false)] = Irreps.dim [(1, 0, false)] ∧ 1 ≤ [4].length ∧ 1 ≤ 1 ∧
    ((∀ pm : String,
      downBlockInit [(1, 0, false)] [(1, 0, false)] [(1, 0, false)] 1 [4] 1 1
        1 1 (some pm) "mlp" = .error .poolMethodAssert) ∧
     (∃ layers radii,
      downBlockInit [(1, 0, false)] [(1, 0, false)] [(1, 0, false)] 1 [4] 1 1
        1 1 none "mlp" = .ok (layers, radii) ∧
      ∀ l ∈ layers, l.isPooling = false)) :=
  ⟨by decide, by decide, by decide,
   downblock_pool_ratio_one_check [(1, 0, false)] [(1, 0, false)] [(1, 0, false)] 1 [4]
     1 1 1 (by decide) (by decide) (by decide)⟩

/-- C8: constructing a PoolingBlock whose source irrep signature differs
from its destination irrep signature raises the mismatch error at
construction time, and with equal signatures construction never produces
that error (it proceeds past the check). -/
theorem poolingblock_signature_check (irreps_src irreps_dst irreps_edge_attr irreps_head : Irreps)
    (num_heads : ℕ) (fc_neurons : List ℕ) (pool_radius pool_ratio : ℝ)
    (pool_method attn_type : String) (h : irreps_src ≠ irreps_dst) :
    poolingBlockInit irreps_src irreps_dst irreps_edge_attr irreps_head num_heads
      fc_neurons pool_radius pool_ratio pool_method attn_type = .error .irrepsMismatch ∧
    poolingBlockInit irreps_src irreps_src irreps_edge_attr irreps_head num_heads
      fc_neurons pool_radius pool_ratio pool_method attn_type ≠ .error .irrepsMismatch := by
  constructor
  · simp [poolingBlockInit, h]
  · have hne := equiformerBlockInit_ne_mismatch irreps_src irreps_src irreps_edge_attr
      irreps_head num_heads fc_neurons attn_type
    simp only [poolingBlockInit, ne_eq, not_true_eq_false, if_false]
    split
    · rename_i e heq
      intro hc
      exact hne (heq.trans (by
        injection hc with h'
        rw [h']))
    · split_ifs <;> simp

/-- Concrete instantiation of the PoolingBlock signature check with a
one-channel scalar source signature and an empty destination
signature. -/
theorem poolingblock_signature_check_witness :
    ([(1, 0, false)] : Irreps) ≠ ([] : Irreps) ∧
    (poolingBlockInit [(1, 0, false)] [] [] [] 1 [4] 1 1 "fps" "mlp"
        = .error .irrepsMismatch ∧
     poolingBlockInit [(1, 0, false)] [(1, 0, false)] [] [] 1 [4] 1 1 "fps" "mlp"
        ≠ .error .irrepsMismatch) :=
  ⟨by decide,
   poolingblock_signature_check [(1, 0, false)] [] [] [] 1 [4] 1 1 "fps" "mlp" (by decide)⟩

/-! ### block.py: EdfExtractor construction -/

/-- Arguments with which EdfExtractor.__init__ constructs each per-scale
RadiusConnect: search radius, optional offset and neighbor cap. -/
structure RadiusConnectCfg where
  r : ℝ
  offset : Option ℝ
  max_num_neighbors : ℕ

/-- Arguments with which EdfExtractor.__init__ constructs each per-scale
finite-cutoff radial basis layer. -/
structure RadialCfg where
  num_basis : ℕ
  cutoff : ℝ
  offset : ℝ
  softCutoffFlag : Bool

/-- Configuration retained by a successfully constructed EdfExtractor:
the three per-scale module lists. -/
structure ExtractorDesc where
  preConnect : List RadiusConnectCfg
  preRadial : List RadialCfg
  preLayers : List EquiformerBlockDesc

/-- Build the per-scale EquiformerBlocks of the extractor in index
order, mirroring the construction loop of EdfExtractor.__init__. -/
def extractorLayersList (mk : ℕ → Except InitError EquiformerBlockDesc) :
    ℕ → Except InitError (List EquiformerBlockDesc)
  | 0 => .ok []
  | Nat.succ k =>
    match extractorLayersList mk k with
    | .error e => .error e
    | .ok bs =>
      match mk k with
      | .error e => .error e
      | .ok b => .ok (bs ++ [b])

/-- Embedding of EdfExtractor.__init__: after the length assert on the
per-scale cutoff, offset and radial-channel lists and the layer-count
assert, the loop over scales constructs, for scale n, a RadiusConnect
with radius cutoffs n and offset None (the source carries a TODO noting
the offset is not forwarded), a radial basis layer with cutoff
cutoffs n and offset offsets n, and an EquiformerBlock from that
scale's input signature to the embedding signature. -/
def edfExtractorInit (irreps_inputs : List Irreps) (fc_neurons_inputs : List (List ℕ))
    (irreps_emb irreps_edge_attr irreps_head : Irreps) (num_heads : ℕ)
    (fc_neurons : List ℕ) (n_layers : ℕ) (cutoffs offsets : List ℝ)
    (query_radius : ℝ) (attn_type : String) : Except InitError ExtractorDesc :=
  let n_scales := irreps_inputs.length
  if ¬ (offsets.length = cutoffs.length ∧ cutoffs.length = fc_neurons_inputs.length ∧
        fc_neurons_inputs.length = n_scales) then .error .lengthAssert
  else if n_layers < 1 then .error .nLayersAssert
  else
    match extractorLayersList (fun n =>
        equiformerBlockInit (irreps_inputs.getD n []) irreps_emb irreps_edge_attr
          irreps_head num_heads (fc_neurons_inputs.getD n []) attn_type) n_scales with
    | .error e => .error e
    | .ok layers => .ok
      { preConnect := (List.range n_scales).map (fun n =>
          ⟨cutoffs.getD n 0, none, 1000⟩)
        preRadial := (List.range n_scales).map (fun n =>
          ⟨(fc_neurons_inputs.getD n []).getD 0 0, cutoffs.getD n 0, offsets.getD n 0, true⟩)
        preLayers := layers }

/-- C2 fails on the code: EdfExtractor.__init__ constructs every
per-scale RadiusConnect with offset None, not with the per-scale offset
(the source line carries a TODO to forward the offset); the offset
reaches only the radial basis layer.  Concretely, with one scale,
cutoff 2 and offset one half, the connect configuration holds offset
none while the claim requires some one half. -/
theorem edfextractor_connect_offset_none :
    (edfExtractorInit [[(1, 0, false)]] [[4]] [(1, 0, false)] [(1, 0, false)]
        [(1, 0, false)] 1 [4] 1 [2] [(0.5 : ℝ)] 1 "mlp").map
      (fun desc => (desc.preConnect.map RadiusConnectCfg.offset,
                    desc.preRadial.map RadialCfg.offset))
      = .ok ([none], [(0.5 : ℝ)]) ∧
    ([(none : Option ℝ)] ≠ [some (0.5 : ℝ)]) := by
  constructor
  · simp [edfExtractorInit, extractorLayersList, equiformerBlockInit, Irreps.dim,
      Except.map, List.range_succ]
  · simp

/-! ### block.py: message formation in EquiformerBlock.forward -/

/-- Entrywise sum of two feature rows. -/
def vadd (a b : List ℝ) : List ℝ := List.zipWith (· + ·) a b

/-- Embedding of the message formation in EquiformerBlock.forward, with
the layer-norm and linear sublayers acting rowwise.  Exactly as in the
source, the layer-norm output is bound and then immediately shadowed by
the linear layer applied to the raw input, so the normalized features
never reach the projections. -/
def EquiformerBlock.message (norm_1_src linear_src norm_1_dst linear_dst : List ℝ → List ℝ)
    (node_input_src node_input_dst : List (List ℝ))
    (edge_src edge_dst : List ℕ) : List (List ℝ) :=
  let message_src := node_input_src.map norm_1_src
  let message_src := node_input_src.map linear_src
  let message_dst := node_input_dst.map norm_1_dst
  let message_dst := node_input_dst.map linear_dst
  List.zipWith (fun es ed => vadd (message_src.getD es []) (message_dst.getD ed []))
    edge_src edge_dst

/-- Modelled from the spec: the per-edge message as the claim states,
with the linear projections applied to the layer-normalized
features rather than to the raw inputs. -/
def EquiformerBlock.message_claimed
    (norm_1_src linear_src norm_1_dst linear_dst : List ℝ → List ℝ)
    (node_input_src node_input_dst : List (List ℝ))
    (edge_src edge_dst : List ℕ) : List (List ℝ) :=
  let message_src := (node_input_src.map norm_1_src).map linear_src
  let message_dst := (node_input_dst.map norm_1_dst).map linear_dst
  List.zipWith (fun es ed => vadd (message_src.getD es []) (message_dst.getD ed []))
    edge_src edge_dst

/-- Modelled from the spec: the scalar-channel part of the equivariant
layer norm (the layer-norm module itself is not among the provided
sources): subtract the channel mean and divide by the channel standard
deviation. -/
def scalarLayerNorm (v : List ℝ) : List ℝ :=
  let μ := v.sum / (v.length : ℝ)
  let σsq := (v.map (fun x => (x - μ) ^ 2)).sum / (v.length : ℝ)
  v.map (fun x => (x - μ) / Real.sqrt σsq)

/-- C1 fails on the code: with identity linear layers, a single source
node with scalar features (2, 0), a single zero destination node and one
edge, the code's message equals the raw source row (2, 0), while the
claimed message built from the layer-normalized features equals (1, -1);
the two disagree because EquiformerBlock.forward overwrites the
layer-norm output and projects the raw input. -/
theorem equiformer_message_uses_raw_input :
    EquiformerBlock.message scalarLayerNorm id scalarLayerNorm id
      [[2, 0]] [[0, 0]] [0] [0] = [[2, 0]] ∧
    EquiformerBlock.message_claimed scalarLayerNorm id scalarLayerNorm id
      [[2, 0]] [[0, 0]] [0] [0] = [[1, -1]] ∧
    ([[(2 : ℝ), 0]] : List (List ℝ)) ≠ [[1, -1]] := by
  refine ⟨?_, ?_, by norm_num⟩
  · norm_num [EquiformerBlock.message, vadd]
  · norm_num [EquiformerBlock.message_claimed, scalarLayerNorm, vadd, Real.sqrt_one,
      Real.sqrt_zero]

/-! ### block.py: the accumulation loop of EdfExtractor.forward -/

/-- A 3-d coordinate. -/
abbrev Coord := Fin 3 → ℝ

/-- Euclidean norm of a displacement, as taken of each edge vector. -/
def norm3 (v : Coord) : ℝ := Real.sqrt (v 0 ^ 2 + v 1 ^ 2 + v 2 ^ 2)

/-- The per-scale modules of an EdfExtractor as used by forward, over an
arbitrary additive monoid M of query feature arrays (zero playing the
role of the expanded zero_features buffer), a type A of spherical
harmonic edge attributes and a type S of radial edge scalars. -/
structure EdfExtractorModules (M A S : Type) where
  n_scales : ℕ
  preConnectF : ℕ → List Coord → List ℤ → List Coord → List ℤ → List ℕ × List ℕ
  sph : Coord → A
  preRadialF : ℕ → ℝ → S
  preLayersF : ℕ → List (List ℝ) → M → List ℤ → List ℕ → List ℕ → List A → List S → M
  projF : M → M

/-- The body of the scale loop in EdfExtractor.forward for scale n:
query the scale's connectivity, build the per-edge displacement,
spherical harmonics, length and radial scalars, and run the scale's
Equiformer block with the destination features given by the zero
feature array. -/
def EdfExtractor.scaleContrib {M A S : Type} [AddCommMonoid M]
    (ext : EdfExtractorModules M A S) (query_coord : List Coord) (query_batch : List ℤ)
    (node_features : ℕ → List (List ℝ)) (node_coords : ℕ → List Coord)
    (node_batches : ℕ → List ℤ) (n : ℕ) : M :=
  let edges := ext.preConnectF n (node_coords n) (node_batches n) query_coord query_batch
  let edge_src := edges.1
  let edge_dst := edges.2
  let edge_vec := List.zipWith
    (fun es ed => fun j => (node_coords n).getD es (fun _ => 0) j
      - query_coord.getD ed (fun _ => 0) j) edge_src edge_dst
  let edge_attr := edge_vec.map ext.sph
  let edge_length := edge_vec.map norm3
  let edge_scalar := edge_length.map (ext.preRadialF n)
  ext.preLayersF n (node_features n) 0 query_batch edge_src edge_dst edge_attr edge_scalar

/-- The accumulation loop of EdfExtractor.forward: the accumulator
starts at the zero feature array and each scale adds its block output
(computed from a fresh zero destination) to the running value. -/
def EdfExtractor.loop {M A S : Type} [AddCommMonoid M]
    (ext : EdfExtractorModules M A S) (query_coord : List Coord) (query_batch : List ℤ)
    (node_features : ℕ → List (List ℝ)) (node_coords : ℕ → List Coord)
    (node_batches : ℕ → List ℤ) : ℕ → M
  | 0 => 0
  | Nat.succ n =>
    EdfExtractor.loop ext query_coord query_batch node_features node_coords node_batches n
      + EdfExtractor.scaleContrib ext query_coord query_batch node_features node_coords
          node_batches n

/-- Embedding of EdfExtractor.forward: run the accumulation loop over
all scales and apply the final linear projection to the result. -/
def EdfExtractor.forward {M A S : Type} [AddCommMonoid M]
    (ext : EdfExtractorModules M A S) (query_coord : List Coord) (query_batch : List ℤ)
    (node_features : ℕ → List (List ℝ)) (node_coords : ℕ → List Coord)
    (node_batches : ℕ → List ℤ) : M :=
  ext.projF (EdfExtractor.loop ext query_coord query_batch node_features node_coords
    node_batches ext.n_scales)

/-- C5: EdfExtractor.forward computes its result additively over scales:
the returned value is exactly the final projection applied to the sum,
over all scales, of that scale's block output, where each summand is
computed from that scale's own connectivity, geometry and features with
the destination (query) features given by the zero feature array, so no
scale's contribution depends on another scale's contribution. -/
theorem edfextractor_forward_additive {M A S : Type} [AddCommMonoid M]
    (ext : EdfExtractorModules M A S) (query_coord : List Coord) (query_batch : List ℤ)
    (node_features : ℕ → List (List ℝ)) (node_coords : ℕ → List Coord)
    (node_batches : ℕ → List ℤ) :
    EdfExtractor.forward ext query_coord query_batch node_features node_coords node_batches
      = ext.projF (∑ n in Finset.range ext.n_scales,
          EdfExtractor.scaleContrib ext query_coord query_batch node_features node_coords
            node_batches n) := by
  have h : ∀ k : ℕ,
      EdfExtractor.loop ext query_coord query_batch node_features node_coords node_batches k
        = ∑ n in Finset.range k,
            EdfExtractor.scaleContrib ext query_coord query_batch node_features node_coords
              node_batches n := by
    intro k
    induction k with
    | zero => simp [EdfExtractor.loop]
    | succ k ih => rw [EdfExtractor.loop, ih, Finset.sum_range_succ]
  rw [EdfExtractor.forward, h]

end DiffusionEdf
